import Mathlib

/-!
Shallow embedding of `src/client/src/web/WebRTC.ts` (class `WebRTC`), the
peer-to-peer audio/video session manager of the SalaryMan client.

The class keeps two lookup tables (`peers` for outbound calls,
`onCalledPeers` for inbound calls) mapping peer-id strings to a pair of a
media-connection handle and a `<video>` element, a local media stream
`myStream`, and a reference to the `.video-grid` DOM region.  External
handles (PeerJS media connections, DOM video elements, media streams) are
modelled by natural-number identifiers; the JS `Map` is modelled by an
insertion-ordered association list with `Map.has` / `Map.set` /
`Map.get` / `Map.delete` semantics; browser effects (media requests placed,
alert messages shown) are returned as explicit traces.
-/

/-- A character accepted by the PeerJS id character class: the regex
`[^0-9a-z]` with the `i` flag leaves exactly ASCII digits and letters. -/
def isAllowedIdChar (c : Char) : Bool :=
  (('0' ≤ c && c ≤ '9') || ('a' ≤ c && c ≤ 'z') || ('A' ≤ c && c ≤ 'Z'))

/-- Replacement performed on one character by
`userId.replace(/[^0-9a-z]/gi, 'G')`. -/
def sanitizeChar (c : Char) : Char :=
  if isAllowedIdChar c then c else 'G'

/-- `replaceInvalidId` (WebRTC.ts line 35): replaces every character
outside `[0-9a-zA-Z]` by `'G'`. -/
def replaceInvalidId (userId : String) : String :=
  String.mk (userId.data.map sanitizeChar)

/-- An entry of either lookup table: a media-connection handle and a
`<video>` element, both modelled by numeric ids. -/
structure PeerEntry where
  call : Nat
  video : Nat
deriving Repr, DecidableEq

/-- The association-list model of a JS `Map<string, PeerEntry>`:
insertion-ordered key/value pairs, at most one pair per key. -/
abbrev PeerMap := List (String × PeerEntry)

/-- `Map.prototype.has`. -/
def mapHas (m : PeerMap) (k : String) : Bool :=
  m.any (fun p => p.1 == k)

/-- `Map.prototype.get` (`undefined` modelled as `none`). -/
def mapGet (m : PeerMap) (k : String) : Option PeerEntry :=
  (m.find? (fun p => p.1 == k)).map Prod.snd

/-- `Map.prototype.set`: overwrite in place when the key is present,
append otherwise. -/
def mapSet (m : PeerMap) (k : String) (v : PeerEntry) : PeerMap :=
  if mapHas m k then m.map (fun p => if p.1 == k then (k, v) else p)
  else m ++ [(k, v)]

/-- `Map.prototype.delete`. -/
def mapDelete (m : PeerMap) (k : String) : PeerMap :=
  m.filter (fun p => p.1 != k)

/-- A `<video>` DOM element: its identity and the fields `addVideoStream`
writes (`srcObject`, `playsInline`). -/
structure VideoElem where
  id : Nat
  srcObject : Option Nat
  playsInline : Bool
deriving Repr, DecidableEq

/-- The mutable fields of the `WebRTC` class relevant to the claims.
`videoGrid` is `none` when `document.querySelector('.video-grid')`
returned `null`, otherwise the ordered list of appended video-element ids.
`videoConnectedDispatched` records that `setVideoConnected(true)` was
dispatched to the store, `networkNotified` that `network.videoConnected()`
was called.  `nextId` supplies fresh ids for elements created by
`document.createElement`. -/
structure WebRTCState where
  peers : PeerMap
  onCalledPeers : PeerMap
  videoGrid : Option (List Nat)
  myVideo : VideoElem
  myStream : Option Nat
  videoConnectedDispatched : Bool
  networkNotified : Bool
  nextId : Nat
deriving Repr, DecidableEq

/-- `addVideoStream` (WebRTC.ts lines 108-113): set `srcObject` and
`playsInline` on the element, then append it to the grid only when the
`.video-grid` element exists. -/
def addVideoStream (videoGrid : Option (List Nat)) (video : VideoElem)
    (stream : Nat) : VideoElem × Option (List Nat) :=
  let video2 : VideoElem := { video with srcObject := some stream, playsInline := true }
  (video2,
    match videoGrid with
    | some children => some (children ++ [video2.id])
    | none => none)

/-- Whether a video element id is a child of the (possibly absent)
video-grid region. -/
def gridHasVideo (videoGrid : Option (List Nat)) (v : Nat) : Bool :=
  match videoGrid with
  | some children => children.contains v
  | none => false

/-- A browser media request issued through `navigator.mediaDevices`. -/
inductive MediaRequest where
  | videoAudio
  | audioOnly
deriving Repr, DecidableEq

/-- The rejection value of a failed `getUserMedia` promise. -/
structure MediaError where
  name : String
deriving Repr, DecidableEq

/-- The externally visible actions of one `getUserMedia` run: the media
requests issued and the alert messages shown. -/
structure GUMTrace where
  requests : List MediaRequest
  alerts : List String
deriving Repr, DecidableEq

/-- The alert text chosen by the catch handler of `getUserMedia`
(WebRTC.ts lines 76-84). -/
def gumErrorMessage (name : String) : String :=
  if name = "NotAllowedError" then
    "Please allow access to your camera and microphone."
  else if name = "NotFoundError" then
    "No camera or microphone found."
  else
    "No webcam or microphone found, or permission is blocked."

/-- `getUserMedia` (WebRTC.ts lines 57-86).  The environment is explicit:
`isSecure` is `window.isSecureContext` and `outcome` the settlement of the
single `navigator.mediaDevices.getUserMedia({video: true, audio: true})`
promise the method creates.  On success the stream is stored, shown in the
local element, the store is told `setVideoConnected(true)` and the network
is notified; on failure the state is untouched and, when `alertOnError`,
an alert is shown. -/
def getUserMedia (st : WebRTCState) (isSecure : Bool) (alertOnError : Bool)
    (outcome : Except MediaError Nat) : WebRTCState × GUMTrace :=
  if isSecure = false then
    (st, ⟨[], ["Your site must be served over HTTPS for camera/mic to work."]⟩)
  else
    match outcome with
    | Except.ok stream =>
      let p := addVideoStream st.videoGrid st.myVideo stream
      ({ st with
          myStream := some stream
          myVideo := p.1
          videoGrid := p.2
          videoConnectedDispatched := true
          networkNotified := true },
       ⟨[MediaRequest.videoAudio], []⟩)
    | Except.error e =>
      (st, ⟨[MediaRequest.videoAudio],
            if alertOnError then [gumErrorMessage e.name] else []⟩)

/-- `connectToNewUser` (WebRTC.ts lines 89-105): only when `myStream` is
set and the sanitized id is not yet a key of `peers`, place a call and
record it; the second component is the peer id called, `none` when no call
was placed. -/
def connectToNewUser (st : WebRTCState) (userId : String) :
    WebRTCState × Option String :=
  match st.myStream with
  | some _ =>
    let sanitizedId := replaceInvalidId userId
    if mapHas st.peers sanitizedId then (st, none)
    else
      ({ st with
          peers := mapSet st.peers sanitizedId ⟨st.nextId, st.nextId + 1⟩
          nextId := st.nextId + 2 }, some sanitizedId)
  | none => (st, none)

/-- The `'call'` handler installed by `initialize` (WebRTC.ts lines
39-51): when `call.peer` is not yet a key of `onCalledPeers`, answer with
`myStream`, create a video element and record the pair under `call.peer`
(unsanitized); the Boolean tells whether the call was answered. -/
def handleIncomingCall (st : WebRTCState) (callPeer : String) (callId : Nat) :
    WebRTCState × Bool :=
  if mapHas st.onCalledPeers callPeer then (st, false)
  else
    ({ st with
        onCalledPeers := mapSet st.onCalledPeers callPeer ⟨callId, st.nextId⟩
        nextId := st.nextId + 1 }, true)

/-- `deleteVideoStream` (WebRTC.ts lines 116-124): close the recorded
call, remove its video element from the DOM and drop the entry from
`peers`; the second component lists the call handles closed. -/
def deleteVideoStream (st : WebRTCState) (userId : String) :
    WebRTCState × List Nat :=
  let sanitizedId := replaceInvalidId userId
  match mapGet st.peers sanitizedId with
  | some peer =>
    ({ st with
        peers := mapDelete st.peers sanitizedId
        videoGrid := st.videoGrid.map (fun g => g.filter (fun v => v != peer.video)) },
     [peer.call])
  | none => (st, [])

/-- `deleteOnCalledVideoStream` (WebRTC.ts lines 127-135): same as
`deleteVideoStream` but on the inbound table `onCalledPeers`. -/
def deleteOnCalledVideoStream (st : WebRTCState) (userId : String) :
    WebRTCState × List Nat :=
  let sanitizedId := replaceInvalidId userId
  match mapGet st.onCalledPeers sanitizedId with
  | some onCalledPeer =>
    ({ st with
        onCalledPeers := mapDelete st.onCalledPeers sanitizedId
        videoGrid := st.videoGrid.map
          (fun g => g.filter (fun v => v != onCalledPeer.video)) },
     [onCalledPeer.call])
  | none => (st, [])

/-- A media track: only its `enabled` flag matters to the buttons. -/
structure Track where
  enabled : Bool
deriving Repr, DecidableEq

/-- The local `MediaStream` as the buttons see it: `getAudioTracks()` and
`getVideoTracks()`. -/
structure LocalStream where
  audioTracks : List Track
  videoTracks : List Track
deriving Repr, DecidableEq

/-- The click handler of the audio button (WebRTC.ts lines 145-151): when
`myStream` is set, flip `enabled` on its first audio track and relabel the
button; reading `enabled` off an absent first track is the JS `TypeError`,
modelled as `none`.  The result pairs the updated stream with the new
button label. -/
def clickAudioButton (myStream : Option LocalStream) (label : String) :
    Option (Option LocalStream × String) :=
  match myStream with
  | none => some (none, label)
  | some s =>
    match s.audioTracks with
    | [] => none
    | t :: ts =>
      let t2 : Track := { t with enabled := !t.enabled }
      some (some { s with audioTracks := t2 :: ts },
            if t2.enabled then "Mute" else "Unmute")

/-- The click handler of the video button (WebRTC.ts lines 155-161),
analogous to the audio one with the `Video Off` / `Video On` labels. -/
def clickVideoButton (myStream : Option LocalStream) (label : String) :
    Option (Option LocalStream × String) :=
  match myStream with
  | none => some (none, label)
  | some s =>
    match s.videoTracks with
    | [] => none
    | t :: ts =>
      let t2 : Track := { t with enabled := !t.enabled }
      some (some { s with videoTracks := t2 :: ts },
            if t2.enabled then "Video Off" else "Video On")

/-- Every key of the table is a fixed point of `replaceInvalidId`. -/
def keysSanitized (m : PeerMap) : Bool :=
  m.all (fun p => replaceInvalidId p.1 == p.1)

/-- The registry invariant of the claims: both tables keyed only by
sanitized ids. -/
def tablesSanitized (st : WebRTCState) : Bool :=
  keysSanitized st.peers && keysSanitized st.onCalledPeers

/-- A concrete quiescent state: empty tables, an empty video grid, no
local stream. -/
def sampleState : WebRTCState :=
  ⟨[], [], some [], ⟨0, none, false⟩, none, false, false, 1⟩

/-- A concrete state holding one outbound and one inbound registration and
a local stream. -/
def sampleTwoPeers : WebRTCState :=
  ⟨[("aaa", ⟨1, 2⟩)], [("bbb", ⟨3, 4⟩)], some [2, 4], ⟨0, none, false⟩,
   some 5, true, true, 10⟩

theorem isAllowedIdChar_G : isAllowedIdChar 'G' = true := by decide

theorem isAllowedIdChar_sanitizeChar (c : Char) :
    isAllowedIdChar (sanitizeChar c) = true := by
  unfold sanitizeChar
  by_cases h : isAllowedIdChar c = true
  · simp [h]
  · simp [h, isAllowedIdChar_G]

theorem sanitizeChar_idem (c : Char) :
    sanitizeChar (sanitizeChar c) = sanitizeChar c := by
  unfold sanitizeChar
  by_cases h : isAllowedIdChar c = true
  · simp [h]
  · simp [h, isAllowedIdChar_G]

theorem replaceInvalidId_data (s : String) :
    (replaceInvalidId s).data = s.data.map sanitizeChar := rfl

theorem replaceInvalidId_idem (s : String) :
    replaceInvalidId (replaceInvalidId s) = replaceInvalidId s := by
  unfold replaceInvalidId
  congr 1
  rw [List.map_map]
  exact List.map_congr_left (fun c _ => sanitizeChar_idem c)

theorem mapHas_iff_mem_keys (m : PeerMap) (k : String) :
    mapHas m k = true ↔ k ∈ m.map Prod.fst := by
  simp only [mapHas, List.any_eq_true, beq_iff_eq, List.mem_map]

theorem mapGet_eq_none_of_not_has (m : PeerMap) (k : String)
    (h : mapHas m k = false) : mapGet m k = none := by
  simp only [mapHas, List.any_eq_false] at h
  have hf : m.find? (fun p => p.1 == k) = none := List.find?_eq_none.mpr h
  simp [mapGet, hf]

theorem mapHas_mapDelete (m : PeerMap) (k : String) :
    mapHas (mapDelete m k) k = false := by
  simp only [mapHas, mapDelete, List.any_eq_false, List.mem_filter]
  rintro p ⟨-, hne⟩
  simpa using hne

theorem mapGet_cons (p : String × PeerEntry) (t : PeerMap) (k : String) :
    mapGet (p :: t) k = if (p.1 == k) = true then some p.2 else mapGet t k := by
  cases h2 : (p.1 == k) with
  | true => simp [mapGet, List.find?_cons, h2]
  | false => simp [mapGet, List.find?_cons, h2]

theorem mapGet_mapDelete_ne (m : PeerMap) (k k' : String) (h : k' ≠ k) :
    mapGet (mapDelete m k) k' = mapGet m k' := by
  induction m with
  | nil => rfl
  | cons p t ih =>
    rw [mapDelete, List.filter_cons]
    by_cases hp : p.1 = k
    · have hbne : (p.1 != k) = false := by simp [hp]
      have hbeqf : (p.1 == k') = false := by
        simp only [hp, beq_eq_false_iff_ne, ne_eq]
        exact fun e => h e.symm
      rw [hbne]
      simp only [Bool.false_eq_true, if_false]
      rw [mapGet_cons, hbeqf]
      simp only [Bool.false_eq_true, if_false]
      exact ih
    · have hbne : (p.1 != k) = true := by simpa using hp
      rw [hbne, if_pos rfl]
      simp only [mapGet_cons]
      by_cases h2 : (p.1 == k') = true
      · rw [h2]
        simp
      · have h2f : (p.1 == k') = false := by simpa using h2
        rw [h2f]
        simp only [Bool.false_eq_true, if_false]
        exact ih

theorem keys_mapSet (m : PeerMap) (k : String) (v : PeerEntry) :
    (mapSet m k v).map Prod.fst =
      if mapHas m k then m.map Prod.fst else m.map Prod.fst ++ [k] := by
  unfold mapSet
  by_cases h : mapHas m k = true
  · simp only [h, if_true, List.map_map]
    refine List.map_congr_left (fun p _ => ?_)
    by_cases hp : (p.1 == k) = true
    · simp only [Function.comp, hp, if_true]
      exact (beq_iff_eq.mp hp).symm
    · simp only [Bool.not_eq_true] at hp
      simp [Function.comp, hp]
  · simp only [Bool.not_eq_true] at h
    simp [h]

theorem keysSanitized_mapSet (m : PeerMap) (k : String) (v : PeerEntry)
    (hm : keysSanitized m = true) (hk : replaceInvalidId k = k) :
    keysSanitized (mapSet m k v) = true := by
  simp only [keysSanitized, List.all_eq_true] at *
  intro p hp
  by_cases hh : mapHas m k = true
  · have hmem : p.1 ∈ m.map Prod.fst := by
      have : p.1 ∈ (mapSet m k v).map Prod.fst := List.mem_map_of_mem Prod.fst hp
      rwa [keys_mapSet, if_pos hh] at this
    rcases List.mem_map.mp hmem with ⟨q, hq, hqe⟩
    have := hm q hq
    rw [← hqe]
    exact this
  · have hb : mapHas m k = false := by simpa using hh
    have hmem : p.1 ∈ m.map Prod.fst ++ [k] := by
      have : p.1 ∈ (mapSet m k v).map Prod.fst := List.mem_map_of_mem Prod.fst hp
      rwa [keys_mapSet, if_neg (by simp [hb])] at this
    rcases List.mem_append.mp hmem with hl | hr
    · rcases List.mem_map.mp hl with ⟨q, hq, hqe⟩
      have := hm q hq
      rw [← hqe]
      exact this
    · have : p.1 = k := by simpa using hr
      rw [this]
      exact beq_iff_eq.mpr hk

theorem keysSanitized_mapDelete (m : PeerMap) (k : String)
    (hm : keysSanitized m = true) : keysSanitized (mapDelete m k) = true := by
  simp only [keysSanitized, List.all_eq_true] at *
  intro p hp
  exact hm p (List.mem_of_mem_filter hp)

/-- C1: every character of `replaceInvalidId userId` lies in the allowed
set `[0-9a-zA-Z]`; pointwise, a character outside the set is replaced by
`'G'` while letters and digits are kept unchanged. -/
theorem claim_C1 (userId : String) :
    (∀ c ∈ (replaceInvalidId userId).data, isAllowedIdChar c = true) ∧
    (replaceInvalidId userId).data =
      userId.data.map (fun c => if isAllowedIdChar c then c else 'G') := by
  constructor
  · intro c hc
    rw [replaceInvalidId_data] at hc
    rcases List.mem_map.mp hc with ⟨c0, -, rfl⟩
    exact isAllowedIdChar_sanitizeChar c0
  · rfl

theorem claim_C1_witness :
    isAllowedIdChar 'G' = true ∧
    (replaceInvalidId "ab_c!").data =
      "ab_c!".data.map (fun c => if isAllowedIdChar c then c else 'G') :=
  ⟨(claim_C1 "ab_c!").1 'G' (by decide), (claim_C1 "ab_c!").2⟩

/-- C8: the sanitizer is idempotent and length-preserving, and two
distinct identifiers of the same length can map to the same sanitized
id. -/
theorem claim_C8 :
    (∀ s : String, replaceInvalidId (replaceInvalidId s) = replaceInvalidId s) ∧
    (∀ s : String, (replaceInvalidId s).length = s.length) ∧
    ∃ s1 s2 : String, s1 ≠ s2 ∧ s1.length = s2.length ∧
      replaceInvalidId s1 = replaceInvalidId s2 := by
  refine ⟨replaceInvalidId_idem, fun s => ?_, "_", "-", by decide, rfl, by decide⟩
  show (replaceInvalidId s).data.length = s.data.length
  rw [replaceInvalidId_data, List.length_map]

theorem claim_C8_witness :
    replaceInvalidId (replaceInvalidId "a b") = replaceInvalidId "a b" ∧
    (replaceInvalidId "a b").length = "a b".length :=
  ⟨claim_C8.1 "a b", claim_C8.2.1 "a b"⟩

/-- C10: before media acquisition (`myStream` unset) `connectToNewUser`
places no call and leaves the whole state, both tables and the video grid
included, unchanged. -/
theorem claim_C10 (st : WebRTCState) (u : String) (h : st.myStream = none) :
    connectToNewUser st u = (st, none) := by
  simp [connectToNewUser, h]

theorem claim_C10_witness :
    connectToNewUser sampleState "Q!" = (sampleState, none) :=
  claim_C10 sampleState "Q!" rfl

/-- C2 counterexample: on a secure run whose combined video+audio request
is rejected, `getUserMedia` issues no audio-only request at all — the
request trace contains only the one video+audio request, refuting the
claimed fallback at this input. -/
theorem claim_C2_counterexample :
    MediaRequest.audioOnly ∉
      (getUserMedia sampleState true true
        (Except.error ⟨"NotFoundError"⟩)).2.requests := by
  decide

/-- C2 (amended): when the combined video+audio request is rejected, the
module gives up without issuing any further media request: the request
trace of the run is exactly the single video+audio request, so in
particular no audio-only request is made. -/
theorem claim_C2 (st : WebRTCState) (alertOnError : Bool) (e : MediaError) :
    (getUserMedia st true alertOnError (Except.error e)).2.requests =
      [MediaRequest.videoAudio] ∧
    MediaRequest.audioOnly ∉
      (getUserMedia st true alertOnError (Except.error e)).2.requests := by
  refine ⟨rfl, ?_⟩
  intro hmem
  have : MediaRequest.audioOnly ∈ [MediaRequest.videoAudio] := hmem
  simp at this

theorem claim_C2_witness :
    (getUserMedia sampleState true true
        (Except.error ⟨"NotAllowedError"⟩)).2.requests =
      [MediaRequest.videoAudio] ∧
    MediaRequest.audioOnly ∉
      (getUserMedia sampleState true true
        (Except.error ⟨"NotAllowedError"⟩)).2.requests :=
  claim_C2 sampleState true ⟨"NotAllowedError"⟩

/-- C5: a successful acquisition stores the stream, dispatches
`setVideoConnected(true)` and calls `network.videoConnected()`; a failed
one leaves the state exactly as it was and, when `alertOnError` is set,
shows an alert message. -/
theorem claim_C5 (st : WebRTCState) (alertOnError : Bool) :
    (∀ stream : Nat,
      (getUserMedia st true alertOnError (Except.ok stream)).1.myStream =
        some stream ∧
      (getUserMedia st true alertOnError
        (Except.ok stream)).1.videoConnectedDispatched = true ∧
      (getUserMedia st true alertOnError
        (Except.ok stream)).1.networkNotified = true) ∧
    (∀ e : MediaError,
      (getUserMedia st true alertOnError (Except.error e)).1 = st ∧
      (alertOnError = true →
        (getUserMedia st true alertOnError (Except.error e)).2.alerts ≠ [])) := by
  refine ⟨fun stream => ⟨rfl, rfl, rfl⟩, fun e => ⟨rfl, fun ha => ?_⟩⟩
  subst ha
  intro hc
  exact List.cons_ne_nil _ _ hc

theorem claim_C5_witness :
    (getUserMedia sampleState true true (Except.ok 7)).1.myStream = some 7 ∧
    (getUserMedia sampleState true true (Except.error ⟨"NotFoundError"⟩)).1 =
      sampleState ∧
    (getUserMedia sampleState true true
        (Except.error ⟨"NotFoundError"⟩)).2.alerts ≠ [] :=
  ⟨((claim_C5 sampleState true).1 7).1,
   ((claim_C5 sampleState true).2 ⟨"NotFoundError"⟩).1,
   ((claim_C5 sampleState true).2 ⟨"NotFoundError"⟩).2 rfl⟩

/-- C6 counterexample: when `document.querySelector('.video-grid')`
returned `null`, `addVideoStream` appends the element nowhere — the video
is a child of no grid afterwards, refuting the unconditional appending. -/
theorem claim_C6_counterexample :
    gridHasVideo (addVideoStream none ⟨3, none, false⟩ 5).2 3 = false := by
  decide

/-- C6 (amended): after `addVideoStream video stream` the element's
`srcObject` is the given stream and it is configured to play inline; it is
appended as a child of the video-grid region whenever that region exists
(the appending is guarded by `if (this.videoGrid)`). -/
theorem claim_C6 (videoGrid : Option (List Nat)) (video : VideoElem)
    (stream : Nat) :
    (addVideoStream videoGrid video stream).1.srcObject = some stream ∧
    (addVideoStream videoGrid video stream).1.playsInline = true ∧
    (∀ g, videoGrid = some g →
      (addVideoStream videoGrid video stream).2 = some (g ++ [video.id]) ∧
      gridHasVideo (addVideoStream videoGrid video stream).2 video.id = true) := by
  refine ⟨rfl, rfl, fun g hg => ?_⟩
  subst hg
  refine ⟨rfl, ?_⟩
  simp [gridHasVideo, addVideoStream]

theorem claim_C6_witness :
    (addVideoStream (some [9]) ⟨3, none, false⟩ 5).1.srcObject = some 5 ∧
    (addVideoStream (some [9]) ⟨3, none, false⟩ 5).2 = some ([9] ++ [3]) ∧
    gridHasVideo (addVideoStream (some [9]) ⟨3, none, false⟩ 5).2 3 = true :=
  ⟨(claim_C6 (some [9]) ⟨3, none, false⟩ 5).1,
   ((claim_C6 (some [9]) ⟨3, none, false⟩ 5).2.2 [9] rfl).1,
   ((claim_C6 (some [9]) ⟨3, none, false⟩ 5).2.2 [9] rfl).2⟩

theorem mapHas_eq_false_of_mapGet_eq_none (m : PeerMap) (k : String)
    (h : mapGet m k = none) : mapHas m k = false := by
  simp only [mapGet] at h
  have hf : m.find? (fun p => p.1 == k) = none := by
    cases hf2 : m.find? (fun p => p.1 == k) with
    | none => rfl
    | some p =>
      rw [hf2] at h
      simp at h
  simp only [mapHas, List.any_eq_false]
  intro p hp
  simpa using List.find?_eq_none.mp hf p hp

/-- C4: the two tables are independent — `deleteVideoStream` leaves
`onCalledPeers` untouched and only removes the sanitized id's binding from
`peers` (all other keys keep their values), after which the sanitized id
is no longer a key; symmetrically for `deleteOnCalledVideoStream` and
`onCalledPeers`. -/
theorem claim_C4 (st : WebRTCState) (u : String) :
    (deleteVideoStream st u).1.onCalledPeers = st.onCalledPeers ∧
    mapHas (deleteVideoStream st u).1.peers (replaceInvalidId u) = false ∧
    (∀ k, k ≠ replaceInvalidId u →
      mapGet (deleteVideoStream st u).1.peers k = mapGet st.peers k) ∧
    (deleteOnCalledVideoStream st u).1.peers = st.peers ∧
    mapHas (deleteOnCalledVideoStream st u).1.onCalledPeers
      (replaceInvalidId u) = false ∧
    (∀ k, k ≠ replaceInvalidId u →
      mapGet (deleteOnCalledVideoStream st u).1.onCalledPeers k =
        mapGet st.onCalledPeers k) := by
  refine ⟨?_, ?_, ?_, ?_, ?_, ?_⟩
  · unfold deleteVideoStream
    cases hg : mapGet st.peers (replaceInvalidId u) <;> simp [hg]
  · unfold deleteVideoStream
    cases hg : mapGet st.peers (replaceInvalidId u) with
    | none =>
      simp only [hg]
      exact mapHas_eq_false_of_mapGet_eq_none _ _ hg
    | some p => simpa [hg] using mapHas_mapDelete st.peers (replaceInvalidId u)
  · intro k hk
    unfold deleteVideoStream
    cases hg : mapGet st.peers (replaceInvalidId u) with
    | none => simp [hg]
    | some p => simpa [hg] using mapGet_mapDelete_ne st.peers _ k hk
  · unfold deleteOnCalledVideoStream
    cases hg : mapGet st.onCalledPeers (replaceInvalidId u) <;> simp [hg]
  · unfold deleteOnCalledVideoStream
    cases hg : mapGet st.onCalledPeers (replaceInvalidId u) with
    | none =>
      simp only [hg]
      exact mapHas_eq_false_of_mapGet_eq_none _ _ hg
    | some p =>
      simpa [hg] using mapHas_mapDelete st.onCalledPeers (replaceInvalidId u)
  · intro k hk
    unfold deleteOnCalledVideoStream
    cases hg : mapGet st.onCalledPeers (replaceInvalidId u) with
    | none => simp [hg]
    | some p => simpa [hg] using mapGet_mapDelete_ne st.onCalledPeers _ k hk

theorem claim_C4_witness :
    (deleteVideoStream sampleTwoPeers "aaa").1.onCalledPeers =
      sampleTwoPeers.onCalledPeers ∧
    mapHas (deleteVideoStream sampleTwoPeers "aaa").1.peers
      (replaceInvalidId "aaa") = false ∧
    mapGet (deleteVideoStream sampleTwoPeers "aaa").1.peers "zzz" =
      mapGet sampleTwoPeers.peers "zzz" :=
  ⟨(claim_C4 sampleTwoPeers "aaa").1,
   (claim_C4 sampleTwoPeers "aaa").2.1,
   (claim_C4 sampleTwoPeers "aaa").2.2.1 "zzz" (by decide)⟩

/-- C9: registration is idempotent per sanitized id — when the sanitized
id is already a key of `peers`, `connectToNewUser` places no call and
returns the state unchanged; registration keeps the key list duplicate
free, so the table never holds two entries for one sanitized id; and the
incoming-call handler ignores a call whose peer id is already a key of
`onCalledPeers`. -/
theorem claim_C9 (st : WebRTCState) (u : String)
    (h : mapHas st.peers (replaceInvalidId u) = true) :
    connectToNewUser st u = (st, none) ∧
    (∀ u2, (st.peers.map Prod.fst).Nodup →
      ((connectToNewUser st u2).1.peers.map Prod.fst).Nodup) ∧
    (∀ p c, mapHas st.onCalledPeers p = true →
      handleIncomingCall st p c = (st, false)) := by
  refine ⟨?_, ?_, ?_⟩
  · unfold connectToNewUser
    cases hs : st.myStream with
    | none => rfl
    | some s => simp [h]
  · intro u2 hnd
    unfold connectToNewUser
    cases hs : st.myStream with
    | none => exact hnd
    | some s =>
      by_cases hh : mapHas st.peers (replaceInvalidId u2) = true
      · simp only [hh, if_true]
        exact hnd
      · have hb : mapHas st.peers (replaceInvalidId u2) = false := by
          simpa using hh
        simp only [hb, Bool.false_eq_true, if_false]
        rw [keys_mapSet, hb]
        simp only [Bool.false_eq_true, if_false]
        rw [List.nodup_append]
        refine ⟨hnd, List.nodup_singleton _, ?_⟩
        intro a ha hb2
        have : a = replaceInvalidId u2 := by simpa using hb2
        subst this
        exact absurd ((mapHas_iff_mem_keys st.peers _).mpr ha) (by simp [hb])
  · intro p c hp
    unfold handleIncomingCall
    simp [hp]

theorem claim_C9_witness :
    connectToNewUser sampleTwoPeers "aaa" = (sampleTwoPeers, none) ∧
    handleIncomingCall sampleTwoPeers "bbb" 9 = (sampleTwoPeers, false) :=
  ⟨(claim_C9 sampleTwoPeers "aaa" (by decide)).1,
   (claim_C9 sampleTwoPeers "aaa" (by decide)).2.2 "bbb" 9 (by decide)⟩

/-- C3 counterexample: the handler installed for the `'call'` event stores
`call.peer` without sanitizing it; an incoming call whose peer id contains
`'_'` puts a non-sanitized key into `onCalledPeers`, breaking the
invariant on a state that satisfied it. -/
theorem claim_C3_counterexample :
    tablesSanitized sampleState = true ∧
    tablesSanitized (handleIncomingCall sampleState "a_b" 7).1 = false := by
  decide

/-- C3 (amended): every key of `peers` and `onCalledPeers` being a fixed
point of `replaceInvalidId` is preserved by `connectToNewUser` and by both
delete operations unconditionally, and by the incoming-call handler only
when the incoming call's peer id is itself already sanitized (the handler
inserts `call.peer` without sanitizing it). -/
theorem claim_C3 (st : WebRTCState) (h : tablesSanitized st = true) :
    (∀ u, tablesSanitized (connectToNewUser st u).1 = true) ∧
    (∀ u, tablesSanitized (deleteVideoStream st u).1 = true) ∧
    (∀ u, tablesSanitized (deleteOnCalledVideoStream st u).1 = true) ∧
    (∀ p c, replaceInvalidId p = p →
      tablesSanitized (handleIncomingCall st p c).1 = true) := by
  simp only [tablesSanitized, Bool.and_eq_true] at h
  obtain ⟨h1, h2⟩ := h
  refine ⟨?_, ?_, ?_, ?_⟩
  · intro u
    unfold connectToNewUser
    cases hs : st.myStream with
    | none => simp [tablesSanitized, h1, h2]
    | some s =>
      by_cases hh : mapHas st.peers (replaceInvalidId u) = true
      · simp [hh, tablesSanitized, h1, h2]
      · have hb : mapHas st.peers (replaceInvalidId u) = false := by simpa using hh
        simp only [hb, Bool.false_eq_true, if_false, tablesSanitized,
          Bool.and_eq_true]
        exact ⟨keysSanitized_mapSet _ _ _ h1 (replaceInvalidId_idem u), h2⟩
  · intro u
    unfold deleteVideoStream
    cases hg : mapGet st.peers (replaceInvalidId u) with
    | none => simp [hg, tablesSanitized, h1, h2]
    | some p =>
      simp only [hg, tablesSanitized, Bool.and_eq_true]
      exact ⟨keysSanitized_mapDelete _ _ h1, h2⟩
  · intro u
    unfold deleteOnCalledVideoStream
    cases hg : mapGet st.onCalledPeers (replaceInvalidId u) with
    | none => simp [hg, tablesSanitized, h1, h2]
    | some p =>
      simp only [hg, tablesSanitized, Bool.and_eq_true]
      exact ⟨h1, keysSanitized_mapDelete _ _ h2⟩
  · intro p c hp
    unfold handleIncomingCall
    by_cases hh : mapHas st.onCalledPeers p = true
    · simp [hh, tablesSanitized, h1, h2]
    · have hb : mapHas st.onCalledPeers p = false := by simpa using hh
      simp only [hb, Bool.false_eq_true, if_false, tablesSanitized,
        Bool.and_eq_true]
      exact ⟨h1, keysSanitized_mapSet _ _ _ h2 hp⟩

theorem claim_C3_witness :
    tablesSanitized (connectToNewUser sampleTwoPeers "x!").1 = true ∧
    tablesSanitized (handleIncomingCall sampleTwoPeers "abc" 3).1 = true :=
  ⟨(claim_C3 sampleTwoPeers (by decide)).1 "x!",
   (claim_C3 sampleTwoPeers (by decide)).2.2.2 "abc" 3 (by decide)⟩

/-- C7: with the local stream present and its track lists nonempty, each
click of the audio button flips the `enabled` flag of the first audio
track and relabels the button `Mute` exactly when the track ends up
enabled (`Unmute` otherwise); the video button behaves the same on the
first video track with the `Video Off` / `Video On` labels. -/
theorem claim_C7 (s : LocalStream) (la lv : String)
    (ta : Track) (tas : List Track) (tv : Track) (tvs : List Track)
    (ha : s.audioTracks = ta :: tas) (hv : s.videoTracks = tv :: tvs) :
    clickAudioButton (some s) la =
      some (some { s with audioTracks := ⟨!ta.enabled⟩ :: tas },
            if !ta.enabled then "Mute" else "Unmute") ∧
    clickVideoButton (some s) lv =
      some (some { s with videoTracks := ⟨!tv.enabled⟩ :: tvs },
            if !tv.enabled then "Video Off" else "Video On") ∧
    ((if !ta.enabled then "Mute" else "Unmute") = "Mute" ↔
      (!ta.enabled) = true) ∧
    ((if !tv.enabled then "Video Off" else "Video On") = "Video Off" ↔
      (!tv.enabled) = true) := by
  refine ⟨?_, ?_, ?_, ?_⟩
  · simp [clickAudioButton, ha]
  · simp [clickVideoButton, hv]
  · cases hta : ta.enabled <;> simp
  · cases htv : tv.enabled <;> simp

theorem claim_C7_witness :
    clickAudioButton (some ⟨[⟨true⟩], [⟨false⟩]⟩) "Mute" =
      some (some ⟨[⟨false⟩], [⟨false⟩]⟩, "Unmute") ∧
    clickVideoButton (some ⟨[⟨true⟩], [⟨false⟩]⟩) "Video Off" =
      some (some ⟨[⟨true⟩], [⟨true⟩]⟩, "Video Off") :=
  ⟨(claim_C7 ⟨[⟨true⟩], [⟨false⟩]⟩ "Mute" "Video Off"
      ⟨true⟩ [] ⟨false⟩ [] rfl rfl).1,
   (claim_C7 ⟨[⟨true⟩], [⟨false⟩]⟩ "Mute" "Video Off"
      ⟨true⟩ [] ⟨false⟩ [] rfl rfl).2.1⟩
